import Mathlib

/-!
Shallow embedding of `src/include/aisql_connection.hpp` (namespace `aisqlpp`):
the generic result-binding engine (`raw_query_value`, single-slot and
variadic) and the query-executing operations `execute_query_column`,
`execute_query_value`, `execute_query_values`.

Modelling choices:
* Driver accessor payloads are abstract tokens (`Payload := Nat`); the claims
  only depend on which accessor family is used and on control flow, never on
  numeric/string semantics of the cell values.
* A result row supplies the four cppconn accessors (`getDouble`, `getInt64`,
  `getUInt64`, `getString`); each can either return a payload or raise a
  driver exception (`sql::SQLException`), modelled with `Except`.
* A C++ typed output slot `T& val` becomes a `Slot`: its static type tag plus
  its current contents (`none` = never written).  A successful extraction
  stores the pair (accessor family used, payload) — this records exactly which
  accessor wrote the slot, which is what the type-dispatch claims inspect.
* Each operation additionally produces an event trace (liveness check,
  reconnect attempt, statement dispatch, result_ reset, result-set reads) and
  the list of logged lines, so that ordering and logging claims are statable.
* Exceptions thrown inside the `try` block of the three public operations are
  caught at the operation boundary (as in the source) and converted to a
  `false` return plus the four-line catch log.
-/

namespace aisqlpp

/-- Abstract payload produced by a driver accessor. -/
abbrev Payload := Nat

/-- The four cppconn accessor families used by the binder. -/
inductive AccessorFamily
  | doubleAcc
  | int64Acc
  | uint64Acc
  | stringAcc
deriving DecidableEq, Repr

/-- Model of `sql::SQLException`: message, error code, SQL state. -/
structure SQLException where
  what : String
  errorCode : Int
  sqlState : String
deriving DecidableEq, Repr

/-- One row of a result set: per accessor and 1-based column index, either a
payload or a thrown driver exception. -/
structure Row where
  getDouble : Nat → Except SQLException Payload
  getInt64 : Nat → Except SQLException Payload
  getUInt64 : Nat → Except SQLException Payload
  getString : Nat → Except SQLException Payload

/-- Access a row through a named accessor family. -/
def Row.acc (r : Row) : AccessorFamily → Nat → Except SQLException Payload
  | .doubleAcc => r.getDouble
  | .int64Acc => r.getInt64
  | .uint64Acc => r.getUInt64
  | .stringAcc => r.getString

/-- What a slot holds after a successful extraction: the accessor family that
produced the value, and the payload (cast into the slot type in C++). -/
abbrev Stored := AccessorFamily × Payload

/-- The static C++ type of an output slot, as dispatched on by
`raw_query_value` (`typeid` chain plus the `std::string` specialization);
`other s` is any type outside the supported set, `s` its `typeid(T).name()`. -/
inductive CType
  | float
  | double
  | int
  | int64
  | uint
  | uint64
  | string
  | other (name : String)
deriving DecidableEq, Repr

/-- A typed output slot (`T& val` at a call site): static type plus current
contents (`none` = never written). -/
structure Slot where
  ty : CType
  contents : Option Stored
deriving DecidableEq, Repr

/-- Observable events of one `execute_*` call, in order. -/
inductive Event
  | checkValid (alive : Bool)
  | reconnectAttempt (ok : Bool)
  | executeStmt
  | resetResult
  | readRowsCount
  | rsNext
  | readCell (fam : AccessorFamily) (idx : Nat)
deriving DecidableEq, Repr

/-- The native driver/session behaviour visible to a single `execute_*` call:
current liveness, the outcome of a reconnect attempt, and the outcome
(exception or rows of the produced result set) of executing a statement. -/
structure Driver where
  isValid : Bool
  reconnect : Except SQLException Unit
  executeStmt : String → Except SQLException (List Row)

/-- Whether a reconnect attempt on this driver succeeds. -/
def Driver.reconnectOk (d : Driver) : Bool :=
  match d.reconnect with
  | .ok _ => true
  | .error _ => false

/-- Connection state relevant to the claims: the driver/session and the owned
`result_` handle (the rows of the most recent result set, `none` before the
first query). -/
structure Connection where
  driver : Driver
  result_ : Option (List Row)

/-- `connection::raw_query_value(const uint32_t idx, T& val)`
(aisql_connection.hpp lines 85–121, including the `std::string`
specialization at 115–121).  Returns the C++ `bool` (or a propagated driver
exception), the slot after the call, the cell-read events, and the logged
lines. -/
def raw_query_value (r : Row) (idx : Nat) (s : Slot) :
    Except SQLException Bool × Slot × List Event × List String :=
  match s.ty with
  | .float | .double =>
    match r.getDouble idx with
    | .ok p => (.ok true, ⟨s.ty, some (.doubleAcc, p)⟩, [.readCell .doubleAcc idx], [])
    | .error e => (.error e, s, [.readCell .doubleAcc idx], [])
  | .int | .int64 =>
    match r.getInt64 idx with
    | .ok p => (.ok true, ⟨s.ty, some (.int64Acc, p)⟩, [.readCell .int64Acc idx], [])
    | .error e => (.error e, s, [.readCell .int64Acc idx], [])
  | .uint | .uint64 =>
    match r.getUInt64 idx with
    | .ok p => (.ok true, ⟨s.ty, some (.uint64Acc, p)⟩, [.readCell .uint64Acc idx], [])
    | .error e => (.error e, s, [.readCell .uint64Acc idx], [])
  | .string =>
    match r.getString idx with
    | .ok p => (.ok true, ⟨s.ty, some (.stringAcc, p)⟩, [.readCell .stringAcc idx], [])
    | .error e => (.error e, s, [.readCell .stringAcc idx], [])
  | .other n => (.ok false, s, [], ["Unsupported type: " ++ n])

/-- The variadic overload
`connection::raw_query_value(const uint32_t idx, T& val, Args& ... rest)`
(lines 200–206), acting on the list of remaining slots.  As in the source,
the boolean result of the head slot's extraction is evaluated and then
discarded (`raw_query_value(idx, val);`), and only the result of the
recursive tail call is returned; a thrown exception, however, propagates
immediately.  The `[]` case is unreachable from the C++ API (there is no
zero-slot overload). -/
def raw_query_value_list (r : Row) : Nat → List Slot →
    Except SQLException Bool × List Slot × List Event × List String
  | _, [] => (.ok true, [], [], [])
  | idx, [s] =>
    match raw_query_value r idx s with
    | (res, s2, ev, lg) => (res, [s2], ev, lg)
  | idx, s :: s2 :: rest =>
    match raw_query_value r idx s with
    | (.error e, sA, ev, lg) => (.error e, sA :: s2 :: rest, ev, lg)
    | (.ok _, sA, ev, lg) =>
      match raw_query_value_list r (idx + 1) (s2 :: rest) with
      | (res, tl, ev2, lg2) => (res, sA :: tl, ev ++ ev2, lg ++ lg2)

/-- The four log lines emitted by the `catch (sql::SQLException&)` handler of
each public operation (lines 152–155, 187–190, 234–237). -/
def catch_log (sql : String) (e : SQLException) : List String :=
  [" STMT: " ++ sql,
   "# ERR: " ++ e.what,
   " (MySQL error code: " ++ toString e.errorCode,
   ", SQLState: " ++ e.sqlState ++ " )"]

/-- The prologue shared verbatim by `execute_query_column` (129–133),
`execute_query_value` (166–170) and `execute_query_values` (213–217):
`if (!conn_->isValid()) conn_->reconnect();` then `stmt_->execute(sql);`
then `result_.reset(stmt_->getResultSet());`.  Returns the new result set's
rows (or the thrown exception), the connection after the prologue, and the
events so far. -/
def exec_prologue (c : Connection) (sql : String) :
    Except SQLException (List Row) × Connection × List Event :=
  let ev0 : List Event := [.checkValid c.driver.isValid]
  let afterLive : Except SQLException Unit × List Event :=
    if c.driver.isValid then (.ok (), ev0)
    else
      match c.driver.reconnect with
      | .ok _ => (.ok (), ev0 ++ [.reconnectAttempt true])
      | .error e => (.error e, ev0 ++ [.reconnectAttempt false])
  match afterLive with
  | (.error e, evs) => (.error e, c, evs)
  | (.ok _, evs) =>
    match c.driver.executeStmt sql with
    | .error e => (.error e, c, evs ++ [.executeStmt])
    | .ok rows => (.ok rows, { c with result_ := some rows }, evs ++ [.executeStmt, .resetResult])

/-- The `while (result_->next())` loop of `execute_query_column`
(lines 140–147): for each remaining row, run `raw_query_value(1, r_val)`;
on `true`, push the slot's current value (`vec.push_back(r_val)`) and set
`ret_flag`.  The slot `r_val` is a single variable reused across iterations.
Returns the loop outcome (an exception aborts the loop), the vector, the
flag, the final slot, events and log. -/
def query_column_loop : List Row → Slot → List (Option Stored) → Bool →
    Except SQLException Unit × List (Option Stored) × Bool × Slot × List Event × List String
  | [], rv, vec, flag => (.ok (), vec, flag, rv, [.rsNext], [])
  | r :: rest, rv, vec, flag =>
    match raw_query_value r 1 rv with
    | (.error e, rv2, ev, lg) => (.error e, vec, flag, rv2, .rsNext :: ev, lg)
    | (.ok true, rv2, ev, lg) =>
      match query_column_loop rest rv2 (vec ++ [rv2.contents]) true with
      | (res, vec2, flag2, rv3, ev2, lg2) => (res, vec2, flag2, rv3, .rsNext :: (ev ++ ev2), lg ++ lg2)
    | (.ok false, rv2, ev, lg) =>
      match query_column_loop rest rv2 vec flag with
      | (res, vec2, flag2, rv3, ev2, lg2) => (res, vec2, flag2, rv3, .rsNext :: (ev ++ ev2), lg ++ lg2)

/-- `connection::execute_query_column<T>(const string&, std::vector<T>&)`
(lines 124–159).  `ty` is the element type `T`, `vec` the caller's vector.
Returns the C++ `bool`, the connection after the call, the vector after the
call, the event trace, and the logged lines. -/
def execute_query_column (c : Connection) (sql : String) (ty : CType)
    (vec : List (Option Stored)) :
    Bool × Connection × List (Option Stored) × List Event × List String :=
  match exec_prologue c sql with
  | (.error e, c2, evs) => (false, c2, vec, evs, catch_log sql e)
  | (.ok rows, c2, evs) =>
    let evs2 := evs ++ [Event.readRowsCount]
    if rows.length = 0 then
      (false, c2, vec, evs2, [])
    else
      -- vec.clear(); T r_val; bool ret_flag = false; while ...
      match query_column_loop rows ⟨ty, none⟩ [] false with
      | (.error e, vec2, _, _, evL, lg) => (false, c2, vec2, evs2 ++ evL, lg ++ catch_log sql e)
      | (.ok _, vec2, flag, _, evL, lg) => (flag, c2, vec2, evs2 ++ evL, lg)

/-- `connection::execute_query_value<T>(const string&, T&)` (lines 161–194).
`s` is the caller's slot `val`.  Returns the C++ `bool`, the connection, the
slot after the call, the event trace, and the logged lines. -/
def execute_query_value (c : Connection) (sql : String) (s : Slot) :
    Bool × Connection × Slot × List Event × List String :=
  match exec_prologue c sql with
  | (.error e, c2, evs) => (false, c2, s, evs, catch_log sql e)
  | (.ok rows, c2, evs) =>
    let evs2 := evs ++ [Event.readRowsCount]
    if rows.length = 0 then
      (false, c2, s, evs2, [])
    else if rows.length ≠ 1 then
      (false, c2, s, evs2 ++ [Event.readRowsCount], ["Error rows count:" ++ toString rows.length])
    else
      match rows with
      | [] => (false, c2, s, evs2 ++ [Event.rsNext], [])
      | r :: _ =>
        -- if (result_->next()) return raw_query_value(1, val);
        match raw_query_value r 1 s with
        | (.error e, s2, ev, lg) =>
          (false, c2, s2, evs2 ++ [Event.rsNext] ++ ev, lg ++ catch_log sql e)
        | (.ok b, s2, ev, lg) => (b, c2, s2, evs2 ++ [Event.rsNext] ++ ev, lg)

/-- `connection::execute_query_values(const string&, Args& ... rest)`
(lines 208–241).  `slots` are the caller's output slots in order.  Returns
the C++ `bool`, the connection, the slots after the call, the event trace,
and the logged lines. -/
def execute_query_values (c : Connection) (sql : String) (slots : List Slot) :
    Bool × Connection × List Slot × List Event × List String :=
  match exec_prologue c sql with
  | (.error e, c2, evs) => (false, c2, slots, evs, catch_log sql e)
  | (.ok rows, c2, evs) =>
    let evs2 := evs ++ [Event.readRowsCount]
    if rows.length = 0 then
      (false, c2, slots, evs2, [])
    else if rows.length ≠ 1 then
      (false, c2, slots, evs2 ++ [Event.readRowsCount], ["Error rows count:" ++ toString rows.length])
    else
      match rows with
      | [] => (false, c2, slots, evs2 ++ [Event.rsNext], [])
      | r :: _ =>
        -- if (result_->next()) return raw_query_value(1, rest ...);
        match raw_query_value_list r 1 slots with
        | (.error e, sl2, ev, lg) =>
          (false, c2, sl2, evs2 ++ [Event.rsNext] ++ ev, lg ++ catch_log sql e)
        | (.ok b, sl2, ev, lg) => (b, c2, sl2, evs2 ++ [Event.rsNext] ++ ev, lg)

/-! ### Spec-side descriptions (from §4.3 of the spec) and trace predicates -/

/-- The spec's accessor-mapping table (§4.3): which accessor family a slot of
a given semantic type must use; `none` for unsupported types. -/
def specAccessor : CType → Option AccessorFamily
  | .float | .double => some .doubleAcc
  | .int | .int64 => some .int64Acc
  | .uint | .uint64 => some .uint64Acc
  | .string => some .stringAcc
  | .other _ => none

/-- Whether a slot type is in the supported set. -/
def supported (ty : CType) : Bool :=
  match specAccessor ty with
  | some _ => true
  | none => false

/-- The read a slot of type `ty` performs on column `idx` of row `r`:
`.ok (some st)` = value extracted, `.ok none` = unsupported type (no read),
`.error e` = the accessor threw. -/
def cell_read (r : Row) (idx : Nat) (ty : CType) : Except SQLException (Option Stored) :=
  match specAccessor ty with
  | none => .ok none
  | some fam =>
    match r.acc fam idx with
    | .ok p => .ok (some (fam, p))
    | .error e => .error e

/-- The cell-read events a slot of type `ty` at column `idx` generates. -/
def cell_events (ty : CType) (idx : Nat) : List Event :=
  match specAccessor ty with
  | some fam => [.readCell fam idx]
  | none => []

/-- The log lines a single-slot extraction of type `ty` generates. -/
def cell_log (ty : CType) : List String :=
  match ty with
  | .other n => ["Unsupported type: " ++ n]
  | _ => []

/-- Whether extraction of column `idx` into a slot of type `ty` succeeds
(returns `true` without throwing). -/
def cell_ok (r : Row) (idx : Nat) (ty : CType) : Bool :=
  match cell_read r idx ty with
  | .ok (some _) => true
  | _ => false

/-- The vector entry a row contributes in `execute_query_column` (`none` when
the row's extraction does not succeed and nothing is pushed). -/
def cell_entry (r : Row) (ty : CType) : Option (Option Stored) :=
  match cell_read r 1 ty with
  | .ok (some st) => some (some st)
  | _ => none

/-- A slot after one extraction step from column `idx` of row `r`: written on
success, unchanged otherwise. -/
def slot_fill (r : Row) (idx : Nat) (s : Slot) : Slot :=
  match cell_read r idx s.ty with
  | .ok (some st) => ⟨s.ty, some st⟩
  | _ => s

/-- All slots after the multi-slot extraction starting at column `idx`:
slot `j` (0-based) is filled from column `idx + j`. -/
def fill_slots (r : Row) : Nat → List Slot → List Slot
  | _, [] => []
  | idx, s :: rest => slot_fill r idx s :: fill_slots r (idx + 1) rest

/-- Result-set read events (row count, cursor moves, cell reads). -/
def isReadEvent : Event → Bool
  | .readRowsCount => true
  | .rsNext => true
  | .readCell _ _ => true
  | _ => false

/-- No result-set read occurs before the first `resetResult` event. -/
def resetBeforeReads : List Event → Bool
  | [] => true
  | .resetResult :: _ => true
  | e :: rest => !isReadEvent e && resetBeforeReads rest

/-- Reconnect-attempt events. -/
def isReconnectEvent : Event → Bool
  | .reconnectAttempt _ => true
  | _ => false

/-- Number of reconnect attempts in a trace. -/
def reconnectCount (tr : List Event) : Nat := (tr.filter isReconnectEvent).length

/-- The result of the final single-slot call of a multi-slot extraction: the
only boolean the variadic overload actually returns (the earlier slots'
results are discarded by the source). -/
def last_slot_ok (r : Row) : Nat → List Slot → Bool
  | _, [] => true
  | idx, [s] => cell_ok r idx s.ty
  | idx, _ :: s2 :: rest => last_slot_ok r (idx + 1) (s2 :: rest)

/-- The liveness/reconnect protocol claimed for one `execute_*` call with
result `b` and trace `tr` on driver `d`: the first event is the liveness
check of the session; a reconnect is attempted exactly when the session is
invalid, exactly once, immediately after the check (hence before any
statement dispatch); and a failed reconnect means the call returned `false`
and no statement was ever dispatched. -/
def liveness_protocol (d : Driver) (b : Bool) (tr : List Event) : Prop :=
  tr.head? = some (.checkValid d.isValid) ∧
  reconnectCount tr = (if d.isValid then 0 else 1) ∧
  (d.isValid = false → tr[1]? = some (.reconnectAttempt d.reconnectOk)) ∧
  (d.isValid = false → d.reconnectOk = false → b = false ∧ Event.executeStmt ∉ tr)

/-! ### Concrete fixtures for closed instantiations -/

/-- A concrete row: accessor family `fam` at column `i` yields the payload
`base fam + i` (10/20/30/40 for double/int64/uint64/string). -/
def sampleRow : Row :=
  ⟨fun i => .ok (10 + i), fun i => .ok (20 + i), fun i => .ok (30 + i), fun i => .ok (40 + i)⟩

/-- A live connection whose statement execution yields the given rows. -/
def sampleConn (rows : List Row) : Connection :=
  ⟨⟨true, .ok (), fun _ => .ok rows⟩, none⟩

/-- A concrete driver exception. -/
def sampleExn : SQLException := ⟨"Lost connection to MySQL server", 2013, "HY000"⟩

/-- A dropped connection whose reconnect attempt fails. -/
def deadConn : Connection :=
  ⟨⟨false, .error sampleExn, fun _ => .ok [sampleRow]⟩, none⟩

/-- A dropped connection whose reconnect attempt succeeds. -/
def revivedConn (rows : List Row) : Connection :=
  ⟨⟨false, .ok (), fun _ => .ok rows⟩, none⟩

/-- A live connection whose statement execution throws. -/
def failingStmtConn : Connection :=
  ⟨⟨true, .ok (), fun _ => .error sampleExn⟩, none⟩

/-- A row whose every accessor throws (e.g. column index out of range). -/
def throwingRow : Row :=
  ⟨fun _ => .error sampleExn, fun _ => .error sampleExn,
   fun _ => .error sampleExn, fun _ => .error sampleExn⟩

/-! ### Basic lemmas about the binder and the prologue -/

/-- `raw_query_value` in terms of `cell_read`/`cell_events`/`cell_log`. -/
theorem raw_query_value_spec (r : Row) (idx : Nat) (ty : CType) (v : Option Stored) :
    raw_query_value r idx ⟨ty, v⟩ =
      ((match cell_read r idx ty with
        | .error e => .error e
        | .ok (some _) => .ok true
        | .ok none => .ok false),
       (match cell_read r idx ty with
        | .ok (some st) => (⟨ty, some st⟩ : Slot)
        | _ => ⟨ty, v⟩),
       cell_events ty idx, cell_log ty) := by
  cases ty <;>
    simp only [raw_query_value, cell_read, specAccessor, Row.acc, cell_events, cell_log] <;>
    first
      | rfl
      | (cases r.getDouble idx <;> rfl)
      | (cases r.getInt64 idx <;> rfl)
      | (cases r.getUInt64 idx <;> rfl)
      | (cases r.getString idx <;> rfl)

/-- Every event of a single-slot extraction is a result-set read. -/
theorem raw_query_value_events_read (r : Row) (idx : Nat) (s : Slot) :
    ∀ e ∈ (raw_query_value r idx s).2.2.1, isReadEvent e = true := by
  obtain ⟨ty, v⟩ := s
  rw [raw_query_value_spec]
  simp only [cell_events]
  cases specAccessor ty <;> simp [isReadEvent]

/-- Every event of a multi-slot extraction is a result-set read. -/
theorem raw_query_value_list_events_read (r : Row) :
    ∀ (idx : Nat) (slots : List Slot),
      ∀ e ∈ (raw_query_value_list r idx slots).2.2.1, isReadEvent e = true := by
  intro idx slots
  induction slots generalizing idx with
  | nil => simp [raw_query_value_list]
  | cons s rest ih =>
    cases rest with
    | nil =>
      simp only [raw_query_value_list]
      have h := raw_query_value_events_read r idx s
      rcases hrv : raw_query_value r idx s with ⟨res, s2, ev, lg⟩
      rw [hrv] at h
      simpa using h
    | cons s2 rest2 =>
      simp only [raw_query_value_list]
      have h := raw_query_value_events_read r idx s
      rcases hrv : raw_query_value r idx s with ⟨res, sA, ev, lg⟩
      rw [hrv] at h
      cases res with
      | error e => simpa using h
      | ok b =>
        have h2 := ih (idx + 1)
        rcases hrl : raw_query_value_list r (idx + 1) (s2 :: rest2) with ⟨res2, tl, ev2, lg2⟩
        rw [hrl] at h2
        simp only at h h2 ⊢
        intro e he
        rcases List.mem_append.mp he with h3 | h3
        · exact h e h3
        · exact h2 e h3

/-- Every event of the column loop is a result-set read. -/
theorem query_column_loop_events_read :
    ∀ (rows : List Row) (rv : Slot) (vec : List (Option Stored)) (flag : Bool),
      ∀ e ∈ (query_column_loop rows rv vec flag).2.2.2.2.1, isReadEvent e = true := by
  intro rows
  induction rows with
  | nil => simp [query_column_loop, isReadEvent]
  | cons r rest ih =>
    intro rv vec flag
    simp only [query_column_loop]
    have h := raw_query_value_events_read r 1 rv
    rcases hrv : raw_query_value r 1 rv with ⟨res, rv2, ev, lg⟩
    rw [hrv] at h
    simp only at h
    cases res with
    | error ex =>
      simp only
      intro e he
      rcases List.mem_cons.mp he with h3 | h3
      · subst h3; rfl
      · exact h e h3
    | ok b =>
      cases b with
      | true =>
        simp only
        intro e he
        rcases List.mem_cons.mp he with h3 | h3
        · subst h3; rfl
        · rcases List.mem_append.mp h3 with h4 | h4
          · exact h e h4
          · exact ih rv2 (vec ++ [rv2.contents]) true e h4
      | false =>
        simp only
        intro e he
        rcases List.mem_cons.mp he with h3 | h3
        · subst h3; rfl
        · rcases List.mem_append.mp h3 with h4 | h4
          · exact h e h4
          · exact ih rv2 vec flag e h4

/-- Prologue, scenario: session valid, execution succeeds. -/
theorem exec_prologue_valid_ok {c : Connection} {sql : String} {rows : List Row}
    (h1 : c.driver.isValid = true) (h2 : c.driver.executeStmt sql = .ok rows) :
    exec_prologue c sql =
      (.ok rows, { c with result_ := some rows },
       [.checkValid true, .executeStmt, .resetResult]) := by
  simp [exec_prologue, h1, h2]

/-- Prologue, scenario: session valid, execution throws. -/
theorem exec_prologue_valid_err {c : Connection} {sql : String} {e : SQLException}
    (h1 : c.driver.isValid = true) (h2 : c.driver.executeStmt sql = .error e) :
    exec_prologue c sql = (.error e, c, [.checkValid true, .executeStmt]) := by
  simp [exec_prologue, h1, h2]

/-- Prologue, scenario: session invalid, reconnect succeeds, execution
succeeds. -/
theorem exec_prologue_recon_ok {c : Connection} {sql : String} {rows : List Row}
    (h1 : c.driver.isValid = false) (h2 : c.driver.reconnect = .ok ())
    (h3 : c.driver.executeStmt sql = .ok rows) :
    exec_prologue c sql =
      (.ok rows, { c with result_ := some rows },
       [.checkValid false, .reconnectAttempt true, .executeStmt, .resetResult]) := by
  simp [exec_prologue, h1, h2, h3]

/-- Prologue, scenario: session invalid, reconnect succeeds, execution
throws. -/
theorem exec_prologue_recon_exec_err {c : Connection} {sql : String} {e : SQLException}
    (h1 : c.driver.isValid = false) (h2 : c.driver.reconnect = .ok ())
    (h3 : c.driver.executeStmt sql = .error e) :
    exec_prologue c sql =
      (.error e, c, [.checkValid false, .reconnectAttempt true, .executeStmt]) := by
  simp [exec_prologue, h1, h2, h3]

/-- Prologue, scenario: session invalid and the reconnect attempt throws:
no statement is dispatched at all. -/
theorem exec_prologue_recon_fail {c : Connection} {sql : String} {e : SQLException}
    (h1 : c.driver.isValid = false) (h2 : c.driver.reconnect = .error e) :
    exec_prologue c sql = (.error e, c, [.checkValid false, .reconnectAttempt false]) := by
  simp [exec_prologue, h1, h2]

/-- Decomposition of `execute_query_column`: the final connection is the one
produced by the prologue; on a prologue exception the call fails with the
prologue trace; otherwise the trace is the prologue trace followed only by
result-set reads. -/
theorem execute_query_column_decomp (c : Connection) (sql : String) (ty : CType)
    (vec : List (Option Stored)) :
    (execute_query_column c sql ty vec).2.1 = (exec_prologue c sql).2.1 ∧
    (∀ e, (exec_prologue c sql).1 = .error e →
       (execute_query_column c sql ty vec).1 = false ∧
       (execute_query_column c sql ty vec).2.2.2.1 = (exec_prologue c sql).2.2) ∧
    (∀ rows, (exec_prologue c sql).1 = .ok rows →
       ∃ tail, (execute_query_column c sql ty vec).2.2.2.1 = (exec_prologue c sql).2.2 ++ tail ∧
         ∀ e ∈ tail, isReadEvent e = true) := by
  rcases hp : exec_prologue c sql with ⟨res, c2, evs⟩
  cases res with
  | error e =>
    refine ⟨by simp [execute_query_column, hp], ?_, ?_⟩
    · intro e2 _
      simp [execute_query_column, hp]
    · intro rows hr
      exact absurd hr (by simp)
  | ok rows =>
    refine ⟨?_, ?_, ?_⟩
    · by_cases h0 : rows.length = 0
      · simp [execute_query_column, hp, h0]
      · rcases hloop : query_column_loop rows ⟨ty, none⟩ [] false with
          ⟨lres, vec2, flag, rv, evL, lg⟩
        cases lres <;> simp [execute_query_column, hp, h0, hloop]
    · intro e2 hr
      exact absurd hr (by simp)
    · intro rows2 hr
      simp only at hr
      injection hr with hr
      subst hr
      by_cases h0 : rows.length = 0
      · exact ⟨[.readRowsCount], by simp [execute_query_column, hp, h0], by simp [isReadEvent]⟩
      · have hread := query_column_loop_events_read rows ⟨ty, none⟩ [] false
        rcases hloop : query_column_loop rows ⟨ty, none⟩ [] false with
          ⟨lres, vec2, flag, rv, evL, lg⟩
        rw [hloop] at hread
        simp only at hread
        refine ⟨Event.readRowsCount :: evL, ?_, ?_⟩
        · cases lres <;> simp [execute_query_column, hp, h0, hloop]
        · intro e2 he2
          rcases List.mem_cons.mp he2 with h3 | h3
          · subst h3; rfl
          · exact hread e2 h3

/-- Decomposition of `execute_query_value`, as for the column variant. -/
theorem execute_query_value_decomp (c : Connection) (sql : String) (s : Slot) :
    (execute_query_value c sql s).2.1 = (exec_prologue c sql).2.1 ∧
    (∀ e, (exec_prologue c sql).1 = .error e →
       (execute_query_value c sql s).1 = false ∧
       (execute_query_value c sql s).2.2.2.1 = (exec_prologue c sql).2.2) ∧
    (∀ rows, (exec_prologue c sql).1 = .ok rows →
       ∃ tail, (execute_query_value c sql s).2.2.2.1 = (exec_prologue c sql).2.2 ++ tail ∧
         ∀ e ∈ tail, isReadEvent e = true) := by
  rcases hp : exec_prologue c sql with ⟨res, c2, evs⟩
  cases res with
  | error e =>
    refine ⟨by simp [execute_query_value, hp], ?_, ?_⟩
    · intro e2 _
      simp [execute_query_value, hp]
    · intro rows hr
      exact absurd hr (by simp)
  | ok rows =>
    refine ⟨?_, ?_, ?_⟩
    · by_cases h0 : rows.length = 0
      · simp [execute_query_value, hp, h0]
      · by_cases h1 : rows.length ≠ 1
        · simp [execute_query_value, hp, h0, h1]
        · rcases List.length_eq_one.mp (not_not.mp h1) with ⟨r, rfl⟩
          rcases hrv : raw_query_value r 1 s with ⟨rres, s2, ev, lg⟩
          cases rres <;> simp [execute_query_value, hp, hrv]
    · intro e2 hr
      exact absurd hr (by simp)
    · intro rows2 hr
      simp only at hr
      injection hr with hr
      subst hr
      by_cases h0 : rows.length = 0
      · exact ⟨[.readRowsCount], by simp [execute_query_value, hp, h0], by simp [isReadEvent]⟩
      · by_cases h1 : rows.length ≠ 1
        · exact ⟨[.readRowsCount, .readRowsCount],
            by simp [execute_query_value, hp, h0, h1], by simp [isReadEvent]⟩
        · rcases List.length_eq_one.mp (not_not.mp h1) with ⟨r, rfl⟩
          have hread := raw_query_value_events_read r 1 s
          rcases hrv : raw_query_value r 1 s with ⟨rres, s2, ev, lg⟩
          rw [hrv] at hread
          simp only at hread
          refine ⟨Event.readRowsCount :: Event.rsNext :: ev, ?_, ?_⟩
          · cases rres <;> simp [execute_query_value, hp, hrv]
          · intro e2 he2
            rcases List.mem_cons.mp he2 with h3 | h3
            · subst h3; rfl
            · rcases List.mem_cons.mp h3 with h4 | h4
              · subst h4; rfl
              · exact hread e2 h4

/-- Decomposition of `execute_query_values`, as for the other variants. -/
theorem execute_query_values_decomp (c : Connection) (sql : String) (slots : List Slot) :
    (execute_query_values c sql slots).2.1 = (exec_prologue c sql).2.1 ∧
    (∀ e, (exec_prologue c sql).1 = .error e →
       (execute_query_values c sql slots).1 = false ∧
       (execute_query_values c sql slots).2.2.2.1 = (exec_prologue c sql).2.2) ∧
    (∀ rows, (exec_prologue c sql).1 = .ok rows →
       ∃ tail, (execute_query_values c sql slots).2.2.2.1 = (exec_prologue c sql).2.2 ++ tail ∧
         ∀ e ∈ tail, isReadEvent e = true) := by
  rcases hp : exec_prologue c sql with ⟨res, c2, evs⟩
  cases res with
  | error e =>
    refine ⟨by simp [execute_query_values, hp], ?_, ?_⟩
    · intro e2 _
      simp [execute_query_values, hp]
    · intro rows hr
      exact absurd hr (by simp)
  | ok rows =>
    refine ⟨?_, ?_, ?_⟩
    · by_cases h0 : rows.length = 0
      · simp [execute_query_values, hp, h0]
      · by_cases h1 : rows.length ≠ 1
        · simp [execute_query_values, hp, h0, h1]
        · rcases List.length_eq_one.mp (not_not.mp h1) with ⟨r, rfl⟩
          rcases hrv : raw_query_value_list r 1 slots with ⟨rres, sl2, ev, lg⟩
          cases rres <;> simp [execute_query_values, hp, hrv]
    · intro e2 hr
      exact absurd hr (by simp)
    · intro rows2 hr
      simp only at hr
      injection hr with hr
      subst hr
      by_cases h0 : rows.length = 0
      · exact ⟨[.readRowsCount], by simp [execute_query_values, hp, h0], by simp [isReadEvent]⟩
      · by_cases h1 : rows.length ≠ 1
        · exact ⟨[.readRowsCount, .readRowsCount],
            by simp [execute_query_values, hp, h0, h1], by simp [isReadEvent]⟩
        · rcases List.length_eq_one.mp (not_not.mp h1) with ⟨r, rfl⟩
          have hread := raw_query_value_list_events_read r 1 slots
          rcases hrv : raw_query_value_list r 1 slots with ⟨rres, sl2, ev, lg⟩
          rw [hrv] at hread
          simp only at hread
          refine ⟨Event.readRowsCount :: Event.rsNext :: ev, ?_, ?_⟩
          · cases rres <;> simp [execute_query_values, hp, hrv]
          · intro e2 he2
            rcases List.mem_cons.mp he2 with h3 | h3
            · subst h3; rfl
            · rcases List.mem_cons.mp h3 with h4 | h4
              · subst h4; rfl
              · exact hread e2 h4

/-- The column loop under throw-free extraction: it completes, appends
exactly the successful rows' values in result order, and raises the flag iff
the flag was set or some row's extraction succeeded. -/
theorem query_column_loop_clean (ty : CType) :
    ∀ (rows : List Row) (v : Option Stored) (vec : List (Option Stored)) (flag : Bool),
      (∀ r ∈ rows, ∃ o, cell_read r 1 ty = .ok o) →
      (query_column_loop rows ⟨ty, v⟩ vec flag).1 = .ok () ∧
      (query_column_loop rows ⟨ty, v⟩ vec flag).2.1 =
        vec ++ rows.filterMap (fun r => cell_entry r ty) ∧
      (query_column_loop rows ⟨ty, v⟩ vec flag).2.2.1 =
        (flag || rows.any (fun r => cell_ok r 1 ty)) := by
  intro rows
  induction rows with
  | nil => intro v vec flag _; simp [query_column_loop]
  | cons r rest ih =>
    intro v vec flag hcl
    obtain ⟨o, hcr⟩ := hcl r (List.mem_cons_self r rest)
    have hrest : ∀ r2 ∈ rest, ∃ o, cell_read r2 1 ty = .ok o :=
      fun r2 h2 => hcl r2 (List.mem_cons_of_mem r h2)
    cases o with
    | some st =>
      have hrw : raw_query_value r 1 ⟨ty, v⟩ =
          (.ok true, ⟨ty, some st⟩, cell_events ty 1, cell_log ty) := by
        rw [raw_query_value_spec, hcr]
      obtain ⟨ih1, ih2, ih3⟩ := ih (some st) (vec ++ [some st]) true hrest
      simp only [query_column_loop, hrw]
      refine ⟨ih1, ?_, ?_⟩
      · rw [ih2]
        simp [cell_entry, hcr]
      · rw [ih3]
        simp [cell_ok, hcr]
    | none =>
      have hrw : raw_query_value r 1 ⟨ty, v⟩ =
          (.ok false, ⟨ty, v⟩, cell_events ty 1, cell_log ty) := by
        rw [raw_query_value_spec, hcr]
      obtain ⟨ih1, ih2, ih3⟩ := ih v vec flag hrest
      simp only [query_column_loop, hrw]
      refine ⟨ih1, ?_, ?_⟩
      · rw [ih2]
        simp [cell_entry, hcr]
      · rw [ih3]
        simp [cell_ok, hcr]

/-- The variadic extractor under throw-free extraction: it completes, fills
slot `j` (0-based) from column `idx + j`, and its boolean result is that of
the final slot alone (the source discards every earlier slot's result). -/
theorem raw_query_value_list_clean (r : Row) :
    ∀ (idx : Nat) (slots : List Slot),
      (∀ (j : Nat) (s : Slot), slots[j]? = some s → ∃ o, cell_read r (idx + j) s.ty = .ok o) →
      (raw_query_value_list r idx slots).1 = .ok (last_slot_ok r idx slots) ∧
      (raw_query_value_list r idx slots).2.1 = fill_slots r idx slots := by
  intro idx slots
  induction slots generalizing idx with
  | nil => intro _; simp [raw_query_value_list, last_slot_ok, fill_slots]
  | cons s tl ih =>
    intro hcl
    obtain ⟨o, hcr⟩ : ∃ o, cell_read r idx s.ty = .ok o := by
      have h := hcl 0 s (by simp)
      simpa using h
    obtain ⟨ty, v⟩ := s
    simp only at hcr
    have hrw : raw_query_value r idx ⟨ty, v⟩ =
        ((match o with | some _ => .ok true | none => .ok false),
         (match o with | some st => (⟨ty, some st⟩ : Slot) | none => ⟨ty, v⟩),
         cell_events ty idx, cell_log ty) := by
      rw [raw_query_value_spec]
      simp only [hcr]
      cases o <;> rfl
    cases tl with
    | nil =>
      cases o with
      | some st =>
        simp [raw_query_value_list, hrw, last_slot_ok, fill_slots, slot_fill, cell_ok, hcr]
      | none =>
        simp [raw_query_value_list, hrw, last_slot_ok, fill_slots, slot_fill, cell_ok, hcr]
    | cons s2 tl2 =>
      have htl : ∀ (j : Nat) (s3 : Slot), (s2 :: tl2)[j]? = some s3 →
          ∃ o2, cell_read r (idx + 1 + j) s3.ty = .ok o2 := by
        intro j s3 hj
        have h := hcl (j + 1) s3 (by simpa using hj)
        rwa [show idx + (j + 1) = idx + 1 + j by omega] at h
      obtain ⟨ih1, ih2⟩ := ih (idx + 1) htl
      cases o with
      | some st =>
        simp only [raw_query_value_list, hrw]
        refine ⟨?_, ?_⟩
        · simpa [last_slot_ok] using ih1
        · simp [fill_slots, slot_fill, hcr, ih2]
      | none =>
        simp only [raw_query_value_list, hrw]
        refine ⟨?_, ?_⟩
        · simpa [last_slot_ok] using ih1
        · simp [fill_slots, slot_fill, hcr, ih2]

/-- Index-wise description of `fill_slots`: slot `j` (0-based) is the result
of filling the original slot `j` from column `idx + j`. -/
theorem fill_slots_get (r : Row) :
    ∀ (slots : List Slot) (idx j : Nat),
      (fill_slots r idx slots)[j]? = (slots[j]?).map (fun s => slot_fill r (idx + j) s) := by
  intro slots
  induction slots with
  | nil => intro idx j; simp [fill_slots]
  | cons s tl ih =>
    intro idx j
    cases j with
    | zero => simp [fill_slots]
    | succ j2 =>
      simp only [fill_slots, List.getElem?_cons_succ, ih (idx + 1) j2]
      rw [show idx + 1 + j2 = idx + (j2 + 1) by omega]

/-- A multi-slot extraction whose slots are all strings never reports
binder-level failure (it either throws or returns `true`). -/
theorem raw_query_value_list_string_ok (r : Row) :
    ∀ (idx : Nat) (slots : List Slot), (∀ s ∈ slots, s.ty = CType.string) →
      (raw_query_value_list r idx slots).1 ≠ .ok false := by
  intro idx slots
  induction slots generalizing idx with
  | nil => intro _; simp [raw_query_value_list]
  | cons s tl ih =>
    intro hstr
    obtain ⟨ty, v⟩ := s
    have hty : ty = CType.string := hstr ⟨ty, v⟩ (by simp)
    subst hty
    cases tl with
    | nil =>
      cases hacc : r.getString idx with
      | ok p => simp [raw_query_value_list, raw_query_value, hacc]
      | error e => simp [raw_query_value_list, raw_query_value, hacc]
    | cons s2 tl2 =>
      have htl : ∀ s3 ∈ s2 :: tl2, s3.ty = CType.string :=
        fun s3 h3 => hstr s3 (List.mem_cons_of_mem _ h3)
      cases hacc : r.getString idx with
      | ok p =>
        simp only [raw_query_value_list, raw_query_value, hacc]
        exact ih (idx + 1) htl
      | error e => simp [raw_query_value_list, raw_query_value, hacc]

/-- Row-count post-conditions of `execute_query_value` after a successful
prologue. -/
theorem execute_query_value_post (c : Connection) (sql : String) (s : Slot)
    (rows : List Row) (c2 : Connection) (evs : List Event)
    (hp : exec_prologue c sql = (.ok rows, c2, evs)) :
    ((execute_query_value c sql s).1 = true →
       rows.length = 1 ∧ ((execute_query_value c sql s).2.2.1).contents.isSome = true) ∧
    (rows.length = 0 →
       (execute_query_value c sql s).1 = false ∧
       (execute_query_value c sql s).2.2.1 = s) ∧
    (2 ≤ rows.length →
       (execute_query_value c sql s).1 = false ∧
       (execute_query_value c sql s).2.2.1 = s ∧
       ("Error rows count:" ++ toString rows.length) ∈ (execute_query_value c sql s).2.2.2.2) := by
  by_cases h0 : rows.length = 0
  · obtain rfl : rows = [] := List.length_eq_zero.mp h0
    simp [execute_query_value, hp]
  · by_cases h1 : rows.length ≠ 1
    · refine ⟨?_, fun h => absurd h h0, ?_⟩
      · intro hb
        simp [execute_query_value, hp, h0, h1] at hb
      · intro _
        simp [execute_query_value, hp, h0, h1]
    · rcases List.length_eq_one.mp (not_not.mp h1) with ⟨r, rfl⟩
      obtain ⟨ty, v⟩ := s
      refine ⟨?_, by simp, by intro h; simp at h⟩
      intro hb
      refine ⟨by simp, ?_⟩
      rcases hcr : cell_read r 1 ty with e | o
      · have hrw : raw_query_value r 1 ⟨ty, v⟩ =
            (.error e, ⟨ty, v⟩, cell_events ty 1, cell_log ty) := by
          rw [raw_query_value_spec]
          simp only [hcr]
        simp [execute_query_value, hp, hrw] at hb
      · cases o with
        | none =>
          have hrw : raw_query_value r 1 ⟨ty, v⟩ =
              (.ok false, ⟨ty, v⟩, cell_events ty 1, cell_log ty) := by
            rw [raw_query_value_spec]
            simp only [hcr]
          simp [execute_query_value, hp, hrw] at hb
        | some st =>
          have hrw : raw_query_value r 1 ⟨ty, v⟩ =
              (.ok true, ⟨ty, some st⟩, cell_events ty 1, cell_log ty) := by
            rw [raw_query_value_spec]
            simp only [hcr]
          simp [execute_query_value, hp, hrw]

/-! ### Claim theorems -/

/-- Claim C2: `execute_query_value` returns `true` only when the result set
has exactly one row (and then a value has been written into the output
slot); a zero-row set yields `false` with the slot untouched; a set with
two or more rows yields `false`, logs the row-count error, and never
writes any row's data into the slot. -/
theorem C2_value_requires_exactly_one_row (c : Connection) (sql : String) (s : Slot)
    (rows : List Row)
    (hconn : c.driver.isValid = true ∨ c.driver.reconnect = .ok ())
    (hexec : c.driver.executeStmt sql = .ok rows) :
    ((execute_query_value c sql s).1 = true →
       rows.length = 1 ∧ ((execute_query_value c sql s).2.2.1).contents.isSome = true) ∧
    (rows.length = 0 →
       (execute_query_value c sql s).1 = false ∧
       (execute_query_value c sql s).2.2.1 = s) ∧
    (2 ≤ rows.length →
       (execute_query_value c sql s).1 = false ∧
       (execute_query_value c sql s).2.2.1 = s ∧
       ("Error rows count:" ++ toString rows.length) ∈ (execute_query_value c sql s).2.2.2.2) := by
  by_cases hv : c.driver.isValid = true
  · exact execute_query_value_post c sql s rows _ _ (exec_prologue_valid_ok hv hexec)
  · have hv2 : c.driver.isValid = false := by simpa using hv
    rcases hconn with hv3 | hrc
    · exact absurd hv3 hv
    · exact execute_query_value_post c sql s rows _ _ (exec_prologue_recon_ok hv2 hrc hexec)

/-- Witness for C2 at concrete inputs: a two-row result set yields `false`,
leaves the slot untouched and logs the row count. -/
theorem C2_witness :
    ((sampleConn [sampleRow, sampleRow]).driver.isValid = true ∨
       (sampleConn [sampleRow, sampleRow]).driver.reconnect = .ok ()) ∧
    (sampleConn [sampleRow, sampleRow]).driver.executeStmt "q" = .ok [sampleRow, sampleRow] ∧
    (execute_query_value (sampleConn [sampleRow, sampleRow]) "q" ⟨CType.int, none⟩).1 = false ∧
    (execute_query_value (sampleConn [sampleRow, sampleRow]) "q" ⟨CType.int, none⟩).2.2.1 =
      ⟨CType.int, none⟩ ∧
    ("Error rows count:" ++ toString [sampleRow, sampleRow].length) ∈
      (execute_query_value (sampleConn [sampleRow, sampleRow]) "q" ⟨CType.int, none⟩).2.2.2.2 := by
  have h := C2_value_requires_exactly_one_row (sampleConn [sampleRow, sampleRow]) "q"
    ⟨CType.int, none⟩ [sampleRow, sampleRow] (Or.inl rfl) rfl
  exact ⟨Or.inl rfl, rfl, (h.2.2 (by simp)).1, (h.2.2 (by simp)).2.1, (h.2.2 (by simp)).2.2⟩

/-- Claim C6: for every slot type outside the supported set, single-slot
extraction returns `false` (it does not throw), logs the offending type's
name, and leaves the slot's contents untouched. -/
theorem C6_unsupported_type_fails (r : Row) (idx : Nat) (n : String) (v : Option Stored) :
    raw_query_value r idx ⟨CType.other n, v⟩ =
      (.ok false, ⟨CType.other n, v⟩, [], ["Unsupported type: " ++ n]) := rfl

/-- Claim C7: for every supported slot type, single-slot extraction at a
1-based column index uses exactly the accessor family the spec's mapping
table assigns to that type, stores the accessor's result into the slot, and
returns `true`; the only cell read is that accessor at that index. -/
theorem C7_supported_type_accessor_mapping (r : Row) (idx : Nat) (ty : CType)
    (fam : AccessorFamily) (v : Option Stored) (p : Payload)
    (hfam : specAccessor ty = some fam) (hacc : r.acc fam idx = .ok p) :
    raw_query_value r idx ⟨ty, v⟩ =
      (.ok true, ⟨ty, some (fam, p)⟩, [.readCell fam idx], []) := by
  have hcr : cell_read r idx ty = .ok (some (fam, p)) := by
    simp [cell_read, hfam, hacc]
  have hlog : cell_log ty = [] := by
    cases ty <;> simp_all [specAccessor, cell_log]
  rw [raw_query_value_spec]
  simp [hcr, cell_events, hfam, hlog]

/-- Witness for C7 at a concrete input: an `int` slot at column 2 uses the
signed 64-bit accessor and stores its payload. -/
theorem C7_witness :
    specAccessor CType.int = some AccessorFamily.int64Acc ∧
    sampleRow.acc AccessorFamily.int64Acc 2 = .ok 22 ∧
    raw_query_value sampleRow 2 ⟨CType.int, none⟩ =
      (.ok true, ⟨CType.int, some (AccessorFamily.int64Acc, 22)⟩,
       [.readCell AccessorFamily.int64Acc 2], []) :=
  ⟨rfl, rfl, C7_supported_type_accessor_mapping sampleRow 2 CType.int
    AccessorFamily.int64Acc none 22 rfl rfl⟩

/-- Claim C10: the `std::string` specialization never reports extraction
failure at the binder level (its result is never `false`), and a multi-slot
extraction whose slots are all strings likewise never returns `false`. -/
theorem C10_string_binder_never_fails (r : Row) (idx : Nat) (v : Option Stored)
    (slots : List Slot) (hstr : ∀ s ∈ slots, s.ty = CType.string) :
    (raw_query_value r idx ⟨CType.string, v⟩).1 ≠ .ok false ∧
    (raw_query_value_list r idx slots).1 ≠ .ok false := by
  refine ⟨?_, raw_query_value_list_string_ok r idx slots hstr⟩
  cases hacc : r.getString idx with
  | ok p => simp [raw_query_value, hacc]
  | error e => simp [raw_query_value, hacc]

/-- Witness for C10 at a concrete input: two string slots. -/
theorem C10_witness :
    (∀ s ∈ [Slot.mk CType.string none, Slot.mk CType.string none], s.ty = CType.string) ∧
    ((raw_query_value sampleRow 1 ⟨CType.string, none⟩).1 ≠ .ok false ∧
     (raw_query_value_list sampleRow 1
        [Slot.mk CType.string none, Slot.mk CType.string none]).1 ≠ .ok false) :=
  ⟨by simp, C10_string_binder_never_fails sampleRow 1 none
    [Slot.mk CType.string none, Slot.mk CType.string none] (by simp)⟩

/-- Claim C1 (evaluation at the failing input): the variadic extractor does
NOT short-circuit.  With three slots `(int, unsupported, int64)` on a
one-row result set, the extraction of slot 2 fails, yet the whole call
returns `true` and the third slot has been filled from column 3 — the
source discards the boolean result of every slot except the last
(`raw_query_value(idx, val);` at line 203). -/
theorem C1_no_short_circuit_eval :
    (execute_query_values (sampleConn [sampleRow]) "SELECT a, b, c FROM t"
        [⟨CType.int, none⟩, ⟨CType.other "X", none⟩, ⟨CType.int64, none⟩]).1 = true ∧
    (execute_query_values (sampleConn [sampleRow]) "SELECT a, b, c FROM t"
        [⟨CType.int, none⟩, ⟨CType.other "X", none⟩, ⟨CType.int64, none⟩]).2.2.1 =
      [⟨CType.int, some (AccessorFamily.int64Acc, 21)⟩, ⟨CType.other "X", none⟩,
       ⟨CType.int64, some (AccessorFamily.int64Acc, 23)⟩] ∧
    (execute_query_values (sampleConn [sampleRow]) "SELECT a, b, c FROM t"
        [⟨CType.int, none⟩, ⟨CType.other "X", none⟩, ⟨CType.int64, none⟩]).2.2.2.2 =
      ["Unsupported type: X"] := by
  refine ⟨rfl, rfl, rfl⟩

/-- Behaviour of `execute_query_column` after a successful prologue, under
throw-free extraction. -/
theorem execute_query_column_post (c : Connection) (sql : String) (ty : CType)
    (vec : List (Option Stored)) (rows : List Row) (c2 : Connection) (evs : List Event)
    (hp : exec_prologue c sql = (.ok rows, c2, evs))
    (hclean : ∀ r ∈ rows, ∃ o, cell_read r 1 ty = .ok o) :
    (rows = [] → (execute_query_column c sql ty vec).1 = false ∧
       (execute_query_column c sql ty vec).2.2.1 = vec) ∧
    (rows ≠ [] →
       (execute_query_column c sql ty vec).2.2.1 =
         rows.filterMap (fun r => cell_entry r ty) ∧
       (execute_query_column c sql ty vec).1 = rows.any (fun r => cell_ok r 1 ty)) := by
  constructor
  · rintro rfl
    simp [execute_query_column, hp]
  · intro hne
    have h0 : ¬rows.length = 0 := by
      simpa [List.length_eq_zero] using hne
    obtain ⟨hq1, hq2, hq3⟩ := query_column_loop_clean ty rows none [] false hclean
    rcases hqc : query_column_loop rows ⟨ty, none⟩ [] false with ⟨lres, vec2, flag, rv, evL, lg⟩
    rw [hqc] at hq1 hq2 hq3
    simp only at hq1 hq2 hq3
    subst hq1
    constructor
    · simp only [execute_query_column, hp, h0, hqc]
      simp [hq2]
    · simp only [execute_query_column, hp, h0, hqc]
      simp [hq3]

/-- Claim C3: with a live session and throw-free extraction,
`execute_query_column` visits every row in result order, appends exactly the
successfully extracted values to the vector, and returns `true` iff at
least one row was present and at least one extraction succeeded (an empty
result set or all-failed extractions give `false`; partial success keeps
the succeeded rows and gives `true`). -/
theorem C3_column_iterates_in_order (c : Connection) (sql : String) (ty : CType)
    (vec : List (Option Stored)) (rows : List Row)
    (hconn : c.driver.isValid = true ∨ c.driver.reconnect = .ok ())
    (hexec : c.driver.executeStmt sql = .ok rows)
    (hclean : ∀ r ∈ rows, ∃ o, cell_read r 1 ty = .ok o) :
    (rows = [] → (execute_query_column c sql ty vec).1 = false ∧
       (execute_query_column c sql ty vec).2.2.1 = vec) ∧
    (rows ≠ [] →
       (execute_query_column c sql ty vec).2.2.1 =
         rows.filterMap (fun r => cell_entry r ty) ∧
       (execute_query_column c sql ty vec).1 = rows.any (fun r => cell_ok r 1 ty)) ∧
    ((execute_query_column c sql ty vec).1 = true ↔
       rows ≠ [] ∧ ∃ r ∈ rows, cell_ok r 1 ty = true) := by
  have hpost :
      (rows = [] → (execute_query_column c sql ty vec).1 = false ∧
         (execute_query_column c sql ty vec).2.2.1 = vec) ∧
      (rows ≠ [] →
         (execute_query_column c sql ty vec).2.2.1 =
           rows.filterMap (fun r => cell_entry r ty) ∧
         (execute_query_column c sql ty vec).1 = rows.any (fun r => cell_ok r 1 ty)) := by
    by_cases hv : c.driver.isValid = true
    · exact execute_query_column_post c sql ty vec rows _ _ (exec_prologue_valid_ok hv hexec) hclean
    · have hv2 : c.driver.isValid = false := by simpa using hv
      rcases hconn with hv3 | hrc
      · exact absurd hv3 hv
      · exact execute_query_column_post c sql ty vec rows _ _
          (exec_prologue_recon_ok hv2 hrc hexec) hclean
  refine ⟨hpost.1, hpost.2, ?_⟩
  cases rows with
  | nil => simp [(hpost.1 rfl).1]
  | cons r rest =>
    rw [(hpost.2 (by simp)).2]
    simp [List.any_eq_true]

/-- Witness for C3 at concrete inputs: three rows of which the middle one
fails to extract (unsupported type is impossible here, so failure is
modelled by a supported type on rows that all succeed): a three-row
all-success run returns `true` with the three values in order. -/
theorem C3_witness :
    ((sampleConn [sampleRow, sampleRow, sampleRow]).driver.isValid = true ∨
       (sampleConn [sampleRow, sampleRow, sampleRow]).driver.reconnect = .ok ()) ∧
    (sampleConn [sampleRow, sampleRow, sampleRow]).driver.executeStmt "q" =
      .ok [sampleRow, sampleRow, sampleRow] ∧
    (∀ r ∈ [sampleRow, sampleRow, sampleRow], ∃ o, cell_read r 1 CType.int64 = .ok o) ∧
    (execute_query_column (sampleConn [sampleRow, sampleRow, sampleRow]) "q" CType.int64 []).2.2.1 =
      [sampleRow, sampleRow, sampleRow].filterMap (fun r => cell_entry r CType.int64) ∧
    (execute_query_column (sampleConn [sampleRow, sampleRow, sampleRow]) "q" CType.int64 []).1 =
      [sampleRow, sampleRow, sampleRow].any (fun r => cell_ok r 1 CType.int64) := by
  have hcl : ∀ r ∈ [sampleRow, sampleRow, sampleRow], ∃ o, cell_read r 1 CType.int64 = .ok o := by
    intro r hr
    have : r = sampleRow := by
      rcases List.mem_cons.mp hr with h | h
      · exact h
      · rcases List.mem_cons.mp h with h2 | h2
        · exact h2
        · simpa using h2
    subst this
    exact ⟨some (AccessorFamily.int64Acc, 21), rfl⟩
  have h := C3_column_iterates_in_order (sampleConn [sampleRow, sampleRow, sampleRow]) "q"
    CType.int64 [] [sampleRow, sampleRow, sampleRow] (Or.inl rfl) rfl hcl
  exact ⟨Or.inl rfl, rfl, hcl, (h.2.1 (by simp)).1, (h.2.1 (by simp)).2⟩

/-- Behaviour of `execute_query_values` after a successful prologue. -/
theorem execute_query_values_post (c : Connection) (sql : String) (slots : List Slot)
    (rows : List Row) (c2 : Connection) (evs : List Event)
    (hp : exec_prologue c sql = (.ok rows, c2, evs)) :
    (rows.length = 0 →
       (execute_query_values c sql slots).1 = false ∧
       (execute_query_values c sql slots).2.2.1 = slots) ∧
    (2 ≤ rows.length →
       (execute_query_values c sql slots).1 = false ∧
       (execute_query_values c sql slots).2.2.1 = slots ∧
       ("Error rows count:" ++ toString rows.length) ∈ (execute_query_values c sql slots).2.2.2.2) ∧
    (∀ r, rows = [r] →
       (∀ (j : Nat) (s : Slot), slots[j]? = some s → ∃ o, cell_read r (1 + j) s.ty = .ok o) →
       (execute_query_values c sql slots).2.2.1 = fill_slots r 1 slots ∧
       (∀ (j : Nat) (s : Slot), slots[j]? = some s →
          (execute_query_values c sql slots).2.2.1[j]? = some (slot_fill r (1 + j) s))) := by
  by_cases h0 : rows.length = 0
  · obtain rfl : rows = [] := List.length_eq_zero.mp h0
    refine ⟨?_, by intro h; simp at h, by intro r hr; simp at hr⟩
    intro _
    simp [execute_query_values, hp]
  · by_cases h1 : rows.length ≠ 1
    · refine ⟨fun h => absurd h h0, ?_, ?_⟩
      · intro _
        simp [execute_query_values, hp, h0, h1]
      · intro r hr
        subst hr
        simp at h1
    · rcases List.length_eq_one.mp (not_not.mp h1) with ⟨r0, rfl⟩
      refine ⟨by intro h; simp at h, by intro h; simp at h, ?_⟩
      intro r hr hcl
      obtain rfl : r0 = r := by simpa using hr
      obtain ⟨hl1, hl2⟩ := raw_query_value_list_clean r0 1 slots hcl
      rcases hrl : raw_query_value_list r0 1 slots with ⟨res, sl2, ev, lg⟩
      rw [hrl] at hl1 hl2
      simp only at hl1 hl2
      subst hl1
      subst hl2
      constructor
      · simp [execute_query_values, hp, hrl]
      · intro j s hj
        simp only [execute_query_values, hp, hrl]
        simp [fill_slots_get, hj]

/-- Claim C9: `execute_query_values` has the same exactly-one-row
requirement as `execute_query_value` (zero rows and two-or-more rows both
yield `false`, the latter with a logged row-count error, slots untouched),
and on a one-row result it delegates to the recursive multi-column
extractor starting at column 1: slot `j` (1-based) is filled from column
`j`, strictly sequentially. -/
theorem C9_values_one_row_sequential_fill (c : Connection) (sql : String)
    (slots : List Slot) (rows : List Row)
    (hconn : c.driver.isValid = true ∨ c.driver.reconnect = .ok ())
    (hexec : c.driver.executeStmt sql = .ok rows) :
    (rows.length = 0 →
       (execute_query_values c sql slots).1 = false ∧
       (execute_query_values c sql slots).2.2.1 = slots) ∧
    (2 ≤ rows.length →
       (execute_query_values c sql slots).1 = false ∧
       (execute_query_values c sql slots).2.2.1 = slots ∧
       ("Error rows count:" ++ toString rows.length) ∈ (execute_query_values c sql slots).2.2.2.2) ∧
    (∀ r, rows = [r] →
       (∀ (j : Nat) (s : Slot), slots[j]? = some s → ∃ o, cell_read r (1 + j) s.ty = .ok o) →
       (execute_query_values c sql slots).2.2.1 = fill_slots r 1 slots ∧
       (∀ (j : Nat) (s : Slot), slots[j]? = some s →
          (execute_query_values c sql slots).2.2.1[j]? = some (slot_fill r (1 + j) s))) := by
  by_cases hv : c.driver.isValid = true
  · exact execute_query_values_post c sql slots rows _ _ (exec_prologue_valid_ok hv hexec)
  · have hv2 : c.driver.isValid = false := by simpa using hv
    rcases hconn with hv3 | hrc
    · exact absurd hv3 hv
    · exact execute_query_values_post c sql slots rows _ _
        (exec_prologue_recon_ok hv2 hrc hexec)

/-- Witness for C9 at concrete inputs: two slots `(int, string)` on a
one-row result are filled from columns 1 and 2. -/
theorem C9_witness :
    ((sampleConn [sampleRow]).driver.isValid = true ∨
       (sampleConn [sampleRow]).driver.reconnect = .ok ()) ∧
    (sampleConn [sampleRow]).driver.executeStmt "q" = .ok [sampleRow] ∧
    ([sampleRow] = [sampleRow]) ∧
    (∀ (j : Nat) (s : Slot), [Slot.mk CType.int none, Slot.mk CType.string none][j]? = some s →
       ∃ o, cell_read sampleRow (1 + j) s.ty = .ok o) ∧
    (execute_query_values (sampleConn [sampleRow]) "q"
        [Slot.mk CType.int none, Slot.mk CType.string none]).2.2.1 =
      fill_slots sampleRow 1 [Slot.mk CType.int none, Slot.mk CType.string none] := by
  have hcl : ∀ (j : Nat) (s : Slot),
      [Slot.mk CType.int none, Slot.mk CType.string none][j]? = some s →
      ∃ o, cell_read sampleRow (1 + j) s.ty = .ok o := by
    intro j s hj
    match j with
    | 0 =>
      obtain rfl : s = Slot.mk CType.int none := by simpa using hj.symm
      exact ⟨some (AccessorFamily.int64Acc, 21), rfl⟩
    | 1 =>
      obtain rfl : s = Slot.mk CType.string none := by simpa using hj.symm
      exact ⟨some (AccessorFamily.stringAcc, 42), rfl⟩
    | n + 2 => simp at hj
  have h := C9_values_one_row_sequential_fill (sampleConn [sampleRow]) "q"
    [Slot.mk CType.int none, Slot.mk CType.string none] [sampleRow] (Or.inl rfl) rfl
  exact ⟨Or.inl rfl, rfl, rfl, hcl, (h.2.2 sampleRow rfl hcl).1⟩

/-- Claim C5: a driver exception raised during reconnect or during statement
execution inside any of the three query operations is caught there and
converted to a `false` return whose log is the four-line catch log (failing
SQL text, driver message, driver error code, driver SQL state); by the
total (`Bool`-valued) signature of the operations no exception propagates. -/
theorem C5_driver_exceptions_caught (c : Connection) (sql : String) (ty : CType)
    (vec : List (Option Stored)) (s : Slot) (slots : List Slot) (e : SQLException) :
    (c.driver.isValid = false → c.driver.reconnect = .error e →
       execute_query_column c sql ty vec =
         (false, c, vec, [.checkValid false, .reconnectAttempt false], catch_log sql e) ∧
       execute_query_value c sql s =
         (false, c, s, [.checkValid false, .reconnectAttempt false], catch_log sql e) ∧
       execute_query_values c sql slots =
         (false, c, slots, [.checkValid false, .reconnectAttempt false], catch_log sql e)) ∧
    ((c.driver.isValid = true ∨ c.driver.reconnect = .ok ()) →
       c.driver.executeStmt sql = .error e →
       (execute_query_column c sql ty vec).1 = false ∧
       (execute_query_column c sql ty vec).2.2.2.2 = catch_log sql e ∧
       (execute_query_value c sql s).1 = false ∧
       (execute_query_value c sql s).2.2.2.2 = catch_log sql e ∧
       (execute_query_values c sql slots).1 = false ∧
       (execute_query_values c sql slots).2.2.2.2 = catch_log sql e) ∧
    ((" STMT: " ++ sql) ∈ catch_log sql e ∧
     ("# ERR: " ++ e.what) ∈ catch_log sql e ∧
     (" (MySQL error code: " ++ toString e.errorCode) ∈ catch_log sql e ∧
     (", SQLState: " ++ e.sqlState ++ " )") ∈ catch_log sql e) := by
  refine ⟨?_, ?_, by simp [catch_log]⟩
  · intro h1 h2
    have hp : exec_prologue c sql =
        (.error e, c, [.checkValid false, .reconnectAttempt false]) :=
      exec_prologue_recon_fail h1 h2
    exact ⟨by simp [execute_query_column, hp], by simp [execute_query_value, hp],
      by simp [execute_query_values, hp]⟩
  · intro hconn hexec
    obtain ⟨tr, hp⟩ : ∃ tr, exec_prologue c sql = (.error e, c, tr) := by
      by_cases hv : c.driver.isValid = true
      · exact ⟨_, exec_prologue_valid_err hv hexec⟩
      · have hv2 : c.driver.isValid = false := by simpa using hv
        rcases hconn with hv3 | hrc
        · exact absurd hv3 hv
        · exact ⟨_, exec_prologue_recon_exec_err hv2 hrc hexec⟩
    exact ⟨by simp [execute_query_column, hp], by simp [execute_query_column, hp],
      by simp [execute_query_value, hp], by simp [execute_query_value, hp],
      by simp [execute_query_values, hp], by simp [execute_query_values, hp]⟩

/-- Witness for C5 at concrete inputs: a failed reconnect on a dropped
session converts to `false` with the catch log. -/
theorem C5_witness :
    deadConn.driver.isValid = false ∧
    deadConn.driver.reconnect = .error sampleExn ∧
    execute_query_value deadConn "q" ⟨CType.int, none⟩ =
      (false, deadConn, ⟨CType.int, none⟩,
       [.checkValid false, .reconnectAttempt false], catch_log "q" sampleExn) ∧
    (" STMT: " ++ "q") ∈ catch_log "q" sampleExn := by
  have h := C5_driver_exceptions_caught deadConn "q" CType.int [] ⟨CType.int, none⟩ [] sampleExn
  exact ⟨rfl, rfl, (h.1 rfl rfl).2.1, h.2.2.1⟩

/-- Result-set reads are not reconnect attempts. -/
theorem read_not_reconnect {e : Event} (h : isReadEvent e = true) :
    isReconnectEvent e = false := by
  cases e <;> simp_all [isReadEvent, isReconnectEvent]

/-- Result-set reads are not statement dispatches. -/
theorem read_ne_execute {e : Event} (h : isReadEvent e = true) : e ≠ Event.executeStmt := by
  cases e <;> simp_all [isReadEvent]

/-- `reconnectCount` is additive on appended traces. -/
theorem reconnectCount_append (a b : List Event) :
    reconnectCount (a ++ b) = reconnectCount a + reconnectCount b := by
  simp [reconnectCount, List.filter_append]

/-- A trace of result-set reads contains no reconnect attempt. -/
theorem reconnectCount_all_read (l : List Event) (h : ∀ e ∈ l, isReadEvent e = true) :
    reconnectCount l = 0 := by
  simp only [reconnectCount, List.length_eq_zero, List.filter_eq_nil_iff]
  intro e he
  simp [read_not_reconnect (h e he)]

/-- The liveness protocol follows from the decomposition properties shared
by the three operations. -/
theorem liveness_protocol_of (c : Connection) (sql : String) (b : Bool) (tr : List Event)
    (hp1 : ∀ e, (exec_prologue c sql).1 = .error e →
       b = false ∧ tr = (exec_prologue c sql).2.2)
    (hp2 : ∀ rows, (exec_prologue c sql).1 = .ok rows →
       ∃ tail, tr = (exec_prologue c sql).2.2 ++ tail ∧ ∀ e ∈ tail, isReadEvent e = true) :
    liveness_protocol c.driver b tr := by
  by_cases hv : c.driver.isValid = true
  · cases hex : c.driver.executeStmt sql with
    | ok rows =>
      have hp := exec_prologue_valid_ok hv hex
      obtain ⟨tail, htr, hread⟩ := hp2 rows (by rw [hp])
      rw [hp] at htr
      simp only at htr
      subst htr
      refine ⟨by simp [hv], ?_, ?_, ?_⟩
      · rw [reconnectCount_append, reconnectCount_all_read tail hread, hv]
        rfl
      · intro h; rw [hv] at h; cases h
      · intro h; rw [hv] at h; cases h
    | error ex =>
      have hp := exec_prologue_valid_err hv hex
      obtain ⟨hb, htr⟩ := hp1 ex (by rw [hp])
      rw [hp] at htr
      simp only at htr
      subst htr
      refine ⟨by simp [hv], ?_, ?_, ?_⟩
      · rw [hv]; rfl
      · intro h; rw [hv] at h; cases h
      · intro h; rw [hv] at h; cases h
  · have hv2 : c.driver.isValid = false := by simpa using hv
    cases hrc : c.driver.reconnect with
    | ok u =>
      cases u
      have hro : c.driver.reconnectOk = true := by simp [Driver.reconnectOk, hrc]
      cases hex : c.driver.executeStmt sql with
      | ok rows =>
        have hp := exec_prologue_recon_ok hv2 hrc hex
        obtain ⟨tail, htr, hread⟩ := hp2 rows (by rw [hp])
        rw [hp] at htr
        simp only at htr
        subst htr
        refine ⟨by simp [hv2], ?_, ?_, ?_⟩
        · rw [reconnectCount_append, reconnectCount_all_read tail hread, hv2]
          rfl
        · intro _; simp [hro]
        · intro _ h; rw [hro] at h; cases h
      | error ex =>
        have hp := exec_prologue_recon_exec_err hv2 hrc hex
        obtain ⟨hb, htr⟩ := hp1 ex (by rw [hp])
        rw [hp] at htr
        simp only at htr
        subst htr
        refine ⟨by simp [hv2], ?_, ?_, ?_⟩
        · rw [hv2]; rfl
        · intro _; simp [hro]
        · intro _ h; rw [hro] at h; cases h
    | error ex =>
      have hro : c.driver.reconnectOk = false := by simp [Driver.reconnectOk, hrc]
      have hp : exec_prologue c sql =
          (.error ex, c, [.checkValid false, .reconnectAttempt false]) :=
        exec_prologue_recon_fail hv2 hrc
      obtain ⟨hb, htr⟩ := hp1 ex (by rw [hp])
      rw [hp] at htr
      simp only at htr
      subst htr
      refine ⟨by simp [hv2], ?_, ?_, ?_⟩
      · rw [hv2]; rfl
      · intro _; simp [hro]
      · intro _ _
        exact ⟨hb, by simp⟩

/-- Claim C4: each of the three query operations begins with a liveness
check of the native session; if the session is invalid, exactly one
reconnect attempt follows immediately (hence before any statement
dispatch); if that reconnect fails, the operation returns `false` and no
statement is dispatched at all. -/
theorem C4_liveness_check_then_single_reconnect (c : Connection) (sql : String)
    (ty : CType) (vec : List (Option Stored)) (s : Slot) (slots : List Slot) :
    liveness_protocol c.driver (execute_query_column c sql ty vec).1
      (execute_query_column c sql ty vec).2.2.2.1 ∧
    liveness_protocol c.driver (execute_query_value c sql s).1
      (execute_query_value c sql s).2.2.2.1 ∧
    liveness_protocol c.driver (execute_query_values c sql slots).1
      (execute_query_values c sql slots).2.2.2.1 := by
  obtain ⟨-, h1, h2⟩ := execute_query_column_decomp c sql ty vec
  obtain ⟨-, h3, h4⟩ := execute_query_value_decomp c sql s
  obtain ⟨-, h5, h6⟩ := execute_query_values_decomp c sql slots
  exact ⟨liveness_protocol_of c sql _ _ h1 h2, liveness_protocol_of c sql _ _ h3 h4,
    liveness_protocol_of c sql _ _ h5 h6⟩

/-- Witness for C4 at a concrete input: a dropped session with a failing
reconnect makes `execute_query_value` return `false` after one failed
reconnect attempt and no dispatch. -/
theorem C4_witness :
    liveness_protocol deadConn.driver (execute_query_value deadConn "q" ⟨CType.int, none⟩).1
      (execute_query_value deadConn "q" ⟨CType.int, none⟩).2.2.2.1 :=
  (C4_liveness_check_then_single_reconnect deadConn "q" CType.int [] ⟨CType.int, none⟩ []).2.1

/-- No result-set read precedes the `result_` reset, given the
decomposition properties shared by the three operations. -/
theorem resetBeforeReads_of (c : Connection) (sql : String) (tr : List Event)
    (hp1 : ∀ e, (exec_prologue c sql).1 = .error e → tr = (exec_prologue c sql).2.2)
    (hp2 : ∀ rows, (exec_prologue c sql).1 = .ok rows →
       ∃ tail, tr = (exec_prologue c sql).2.2 ++ tail ∧ ∀ e ∈ tail, isReadEvent e = true) :
    resetBeforeReads tr = true := by
  by_cases hv : c.driver.isValid = true
  · cases hex : c.driver.executeStmt sql with
    | ok rows =>
      have hp := exec_prologue_valid_ok hv hex
      obtain ⟨tail, htr, -⟩ := hp2 rows (by rw [hp])
      rw [hp] at htr
      simp only at htr
      subst htr
      simp [resetBeforeReads, isReadEvent]
    | error ex =>
      have hp := exec_prologue_valid_err hv hex
      have htr := hp1 ex (by rw [hp])
      rw [hp] at htr
      simp only at htr
      subst htr
      simp [resetBeforeReads, isReadEvent]
  · have hv2 : c.driver.isValid = false := by simpa using hv
    cases hrc : c.driver.reconnect with
    | ok u =>
      cases u
      cases hex : c.driver.executeStmt sql with
      | ok rows =>
        have hp := exec_prologue_recon_ok hv2 hrc hex
        obtain ⟨tail, htr, -⟩ := hp2 rows (by rw [hp])
        rw [hp] at htr
        simp only at htr
        subst htr
        simp [resetBeforeReads, isReadEvent]
      | error ex =>
        have hp := exec_prologue_recon_exec_err hv2 hrc hex
        have htr := hp1 ex (by rw [hp])
        rw [hp] at htr
        simp only at htr
        subst htr
        simp [resetBeforeReads, isReadEvent]
    | error ex =>
      have hp : exec_prologue c sql =
          (.error ex, c, [.checkValid false, .reconnectAttempt false]) :=
        exec_prologue_recon_fail hv2 hrc
      have htr := hp1 ex (by rw [hp])
      rw [hp] at htr
      simp only at htr
      subst htr
      simp [resetBeforeReads, isReadEvent]

/-- Claim C8: in every query operation the owned `result_` handle is
replaced by the new result set before any read of that result set (row
count, cursor moves, cell reads) occurs — the trace never shows a read
before the reset — and after a successful dispatch the connection's
`result_` holds exactly the new result set's rows. -/
theorem C8_result_reset_precedes_reads (c : Connection) (sql : String) (ty : CType)
    (vec : List (Option Stored)) (s : Slot) (slots : List Slot) (rows : List Row) :
    resetBeforeReads (execute_query_column c sql ty vec).2.2.2.1 = true ∧
    resetBeforeReads (execute_query_value c sql s).2.2.2.1 = true ∧
    resetBeforeReads (execute_query_values c sql slots).2.2.2.1 = true ∧
    ((c.driver.isValid = true ∨ c.driver.reconnect = .ok ()) →
     c.driver.executeStmt sql = .ok rows →
       (execute_query_column c sql ty vec).2.1.result_ = some rows ∧
       (execute_query_value c sql s).2.1.result_ = some rows ∧
       (execute_query_values c sql slots).2.1.result_ = some rows) := by
  obtain ⟨hc0, hc1, hc2⟩ := execute_query_column_decomp c sql ty vec
  obtain ⟨hv0, hv1, hv2⟩ := execute_query_value_decomp c sql s
  obtain ⟨hs0, hs1, hs2⟩ := execute_query_values_decomp c sql slots
  refine ⟨resetBeforeReads_of c sql _ (fun e he => (hc1 e he).2) hc2,
          resetBeforeReads_of c sql _ (fun e he => (hv1 e he).2) hv2,
          resetBeforeReads_of c sql _ (fun e he => (hs1 e he).2) hs2, ?_⟩
  intro hconn hexec
  obtain ⟨tr, hpp⟩ : ∃ tr,
      exec_prologue c sql = (.ok rows, { c with result_ := some rows }, tr) := by
    by_cases hva : c.driver.isValid = true
    · exact ⟨_, exec_prologue_valid_ok hva hexec⟩
    · have hva2 : c.driver.isValid = false := by simpa using hva
      rcases hconn with hv3 | hrc
      · exact absurd hv3 hva
      · exact ⟨_, exec_prologue_recon_ok hva2 hrc hexec⟩
  rw [hc0, hv0, hs0, hpp]
  exact ⟨rfl, rfl, rfl⟩

/-- Witness for C8 at a concrete input: after a successful one-row query the
connection's `result_` holds the new rows, and no read precedes the reset. -/
theorem C8_witness :
    resetBeforeReads (execute_query_value (sampleConn [sampleRow]) "q"
      ⟨CType.int, none⟩).2.2.2.1 = true ∧
    (execute_query_value (sampleConn [sampleRow]) "q" ⟨CType.int, none⟩).2.1.result_ =
      some [sampleRow] := by
  have h := C8_result_reset_precedes_reads (sampleConn [sampleRow]) "q" CType.int []
    ⟨CType.int, none⟩ [] [sampleRow]
  exact ⟨h.2.1, (h.2.2.2 (Or.inl rfl) rfl).2.1⟩

end aisqlpp
